import Mathlib

/-!
Verification of the card access & personalization protocol of the
digital-wedding-card-generator repository, embedded shallowly in Lean.
Strings are modelled as `List Char`; JavaScript string primitives used by
the sources (`String.prototype.replace` with a global regex,
`String.prototype.trim`, regex `test`) are embedded with their JavaScript
semantics, including `$`-substitution patterns in replacement strings.
-/

namespace WeddingCards

/-- The character `{` (written via its code point to keep string literals plain). -/
def lbrace : Char := Char.ofNat 123

/-- The character `}`. -/
def rbrace : Char := Char.ofNat 125

/-- The backquote character, code point 96. -/
def bquote : Char := Char.ofNat 96

/-- The single-quote character, code point 39. -/
def squote : Char := Char.ofNat 39

/-- The literal placeholder pattern matched by the regex in
`CardViewer.personalizeMessage` (src/frontend/js/card-viewer.js line 84):
the six characters of the text between braces, brace-delimited. -/
def placeholder : List Char := [lbrace, 'n', 'a', 'm', 'e', rbrace]

/-- JavaScript `GetSubstitution` for a replacement string with no capture
groups, specialized to a match of `placeholder`: `$$` yields `$`, `$&`
yields the matched text (the placeholder itself), a `$`-backquote yields
the part of the subject before the match (`pre`), a `$`-quote yields the
part after the match (`suf`), any other `$`-sequence is literal.
This embeds the semantics of the second argument of
`message.replace(/\{name\}/g, name)` in src/frontend/js/card-viewer.js. -/
def expandRepl (pre suf : List Char) : List Char → List Char
  | [] => []
  | '$' :: d :: rest =>
    if d = '$' then '$' :: expandRepl pre suf rest
    else if d = '&' then placeholder ++ expandRepl pre suf rest
    else if d = bquote then pre ++ expandRepl pre suf rest
    else if d = squote then suf ++ expandRepl pre suf rest
    else '$' :: expandRepl pre suf (d :: rest)
  | c :: rest => c :: expandRepl pre suf rest

/-- Left-to-right scan of the subject string performed by
`message.replace(/\{name\}/g, name)`: at each position, if the next six
characters are the placeholder, emit the expanded replacement and continue
after the match; otherwise emit the character and continue.  `pre`
accumulates the already-scanned part of the original subject (needed by
the `$`-backquote substitution pattern). -/
def jsReplaceAux (repl : List Char) : List Char → List Char → List Char
  | pre, c1 :: c2 :: c3 :: c4 :: c5 :: c6 :: rest =>
    if c1 = lbrace ∧ c2 = 'n' ∧ c3 = 'a' ∧ c4 = 'm' ∧ c5 = 'e' ∧ c6 = rbrace then
      expandRepl pre rest repl ++ jsReplaceAux repl (pre ++ placeholder) rest
    else
      c1 :: jsReplaceAux repl (pre ++ [c1]) (c2 :: c3 :: c4 :: c5 :: c6 :: rest)
  | pre, c :: rest => c :: jsReplaceAux repl (pre ++ [c]) rest
  | _, [] => []

/-- `CardViewer.personalizeMessage(message, name)` from
src/frontend/js/card-viewer.js lines 82–85:
`return message.replace(/\{name\}/g, name);`. -/
def personalizeMessage (message name : List Char) : List Char :=
  jsReplaceAux name [] message

/-- Modelled from the spec's words (§4.1: "substitute every occurrence of
the literal placeholder `{name}` in `Card.message` with the sanitized
`viewer_name`"): plain textual replacement of every occurrence of the
placeholder by the name, leaving everything else unchanged.  This is the
spec-side definition against which `personalizeMessage` is compared. -/
def replaceAllSpec (name : List Char) : List Char → List Char
  | c1 :: c2 :: c3 :: c4 :: c5 :: c6 :: rest =>
    if c1 = lbrace ∧ c2 = 'n' ∧ c3 = 'a' ∧ c4 = 'm' ∧ c5 = 'e' ∧ c6 = rbrace then
      name ++ replaceAllSpec name rest
    else
      c1 :: replaceAllSpec name (c2 :: c3 :: c4 :: c5 :: c6 :: rest)
  | c :: rest => c :: replaceAllSpec name rest
  | [] => []

/-- A replacement string containing no `$` expands to itself, whatever the
surrounding context of the match is. -/
lemma expandRepl_no_dollar (pre suf : List Char) (repl : List Char) (h : '$' ∉ repl) :
    expandRepl pre suf repl = repl := by
  induction repl using expandRepl.induct pre suf <;> simp_all [expandRepl]

/-- For a name with no `$`, the JavaScript replace scan coincides with the
plain spec-side replacement. -/
lemma jsReplaceAux_eq_spec (repl : List Char) (h : '$' ∉ repl) (pre s : List Char) :
    jsReplaceAux repl pre s = replaceAllSpec repl s := by
  induction pre, s using jsReplaceAux.induct repl with
  | case1 pre c1 c2 c3 c4 c5 c6 rest hc ih =>
    simp [jsReplaceAux, replaceAllSpec, hc, expandRepl_no_dollar _ _ _ h, ih]
  | case2 pre c1 c2 c3 c4 c5 c6 rest hc ih =>
    simp [jsReplaceAux, replaceAllSpec, hc, ih]
  | case3 pre c rest hne ih =>
    simp [jsReplaceAux, replaceAllSpec, ih]
  | case4 => simp [jsReplaceAux, replaceAllSpec]

/-- If the subject string contains no occurrence of the placeholder, the
JavaScript replace scan returns it unchanged. -/
lemma jsReplaceAux_no_match (repl pre s : List Char) (h : ¬ placeholder <:+: s) :
    jsReplaceAux repl pre s = s := by
  induction pre, s using jsReplaceAux.induct repl with
  | case1 pre c1 c2 c3 c4 c5 c6 rest hc ih =>
    exact absurd ⟨[], rest, by
      simp [placeholder, hc.1, hc.2.1, hc.2.2.1, hc.2.2.2.1, hc.2.2.2.2.1, hc.2.2.2.2.2]⟩ h
  | case2 pre c1 c2 c3 c4 c5 c6 rest hc ih =>
    have h2 : ¬ placeholder <:+: (c2 :: c3 :: c4 :: c5 :: c6 :: rest) := by
      intro ⟨u, v, huv⟩
      exact h ⟨c1 :: u, v, by simp [huv]⟩
    simp [jsReplaceAux, hc, ih h2]
  | case3 pre c rest hne ih =>
    have h2 : ¬ placeholder <:+: rest := by
      intro ⟨u, v, huv⟩
      exact h ⟨c :: u, v, by simp [huv]⟩
    simp [jsReplaceAux, ih h2]
  | case4 => simp [jsReplaceAux]

/-- C1: for every card message `M` and viewer name `N`, personalizing `M`
with `N` returns `M` with every occurrence of the literal substring
`{name}` replaced by `N` and nothing else changed — PROVIDED `N` contains
no `$` character.  (As stated over all `N` the claim is false: JavaScript
`String.replace` interprets `$`-patterns in the replacement string; see
the counterexample below.) -/
theorem personalize_replaces_every_placeholder (M N : List Char) (h : '$' ∉ N) :
    personalizeMessage M N = replaceAllSpec N M :=
  jsReplaceAux_eq_spec N h [] M

theorem personalize_replaces_every_placeholder_witness :
    '$' ∉ "Alice".toList ∧
      personalizeMessage "Dear \x7bname\x7d, welcome!".toList "Alice".toList =
        replaceAllSpec "Alice".toList "Dear \x7bname\x7d, welcome!".toList :=
  ⟨by decide, personalize_replaces_every_placeholder _ _ (by decide)⟩

/-- C1 counterexample: personalizing the message `{name}` with the viewer
name `$$` yields `$` (JavaScript expands `$$` in the replacement string to
a single dollar sign), not the message with the placeholder replaced by
the name `$$`. -/
theorem personalize_dollar_counterexample :
    personalizeMessage "\x7bname\x7d".toList "$$".toList = "$".toList ∧
      replaceAllSpec "$$".toList "\x7bname\x7d".toList = "$$".toList ∧
      personalizeMessage "\x7bname\x7d".toList "$$".toList ≠
        replaceAllSpec "$$".toList "\x7bname\x7d".toList := by
  refine ⟨by decide, by decide, by decide⟩

/-- C6: for every message `M` containing no occurrence of the substring
`{name}` and every viewer name `N`, personalization returns `M` unchanged:
substitution is the identity, not an error. -/
theorem personalize_no_placeholder_noop (M N : List Char) (h : ¬ placeholder <:+: M) :
    personalizeMessage M N = M :=
  jsReplaceAux_no_match N [] M h

theorem personalize_no_placeholder_noop_witness :
    ¬ placeholder <:+: "Congratulations to the happy couple".toList ∧
      personalizeMessage "Congratulations to the happy couple".toList "$&".toList =
        "Congratulations to the happy couple".toList :=
  ⟨by decide, personalize_no_placeholder_noop _ _ (by decide)⟩

/-- C10 amended: personalization is idempotent for a viewer name that
contains neither `{name}` nor `$`, PROVIDED the once-personalized message
contains no occurrence of `{name}` — replacement can splice a new
placeholder together out of the surrounding text, and re-application then
substitutes it again (see the counterexample). -/
theorem personalize_idempotent (M N : List Char) (h1 : '$' ∉ N)
    (h2 : ¬ placeholder <:+: N) (h3 : ¬ placeholder <:+: personalizeMessage M N) :
    personalizeMessage (personalizeMessage M N) N = personalizeMessage M N :=
  jsReplaceAux_no_match N [] (personalizeMessage M N) h3

theorem personalize_idempotent_witness :
    '$' ∉ "Alice".toList ∧ ¬ placeholder <:+: "Alice".toList ∧
      ¬ placeholder <:+: personalizeMessage "Dear \x7bname\x7d!".toList "Alice".toList ∧
      personalizeMessage (personalizeMessage "Dear \x7bname\x7d!".toList "Alice".toList)
          "Alice".toList =
        personalizeMessage "Dear \x7bname\x7d!".toList "Alice".toList :=
  ⟨by decide, by decide, by decide,
    personalize_idempotent _ _ (by decide) (by decide) (by decide)⟩

/-- C10 counterexample: with message `{{name}}` and viewer name `name`
(which contains neither the substring `{name}` nor `$`), the first
personalization produces the string `{name}` — the braces around the
replaced placeholder splice a fresh placeholder — and a second application
replaces it again, so personalization is not idempotent as claimed. -/
theorem personalize_idempotent_counterexample :
    '$' ∉ "name".toList ∧ ¬ placeholder <:+: "name".toList ∧
      personalizeMessage "\x7b\x7bname\x7d\x7d".toList "name".toList = "\x7bname\x7d".toList ∧
      personalizeMessage (personalizeMessage "\x7b\x7bname\x7d\x7d".toList "name".toList)
          "name".toList ≠
        personalizeMessage "\x7b\x7bname\x7d\x7d".toList "name".toList := by
  refine ⟨by decide, by decide, by decide, by decide⟩

/-! ## Input validation (src/frontend/js/utils.js) -/

/-- The whitespace characters stripped by JavaScript `String.prototype.trim`
(space, tab, line feed, carriage return, vertical tab, form feed,
no-break space, BOM; the remaining Unicode space separators behave the
same way and are omitted from the model). -/
def isJsSpace (c : Char) : Bool :=
  c = ' ' ∨ c = '\t' ∨ c = '\n' ∨ c = '\r' ∨ c = Char.ofNat 11 ∨ c = Char.ofNat 12 ∨
    c = Char.ofNat 160 ∨ c = Char.ofNat 65279

/-- JavaScript `String.prototype.trim`: strip leading and trailing
whitespace. -/
def jsTrim (s : List Char) : List Char :=
  ((s.dropWhile isJsSpace).reverse.dropWhile isJsSpace).reverse

/-- Helper for the regex `/<[^>]*>/`: after a `<` has been read, the rest
of the match succeeds exactly when a `>` occurs later (the characters up
to the first such `>` are all non-`>`). -/
def scanToGt : List Char → Bool
  | [] => false
  | c :: rest => if c = '>' then true else scanToGt rest

/-- `/<[^>]*>/.test(s)` from `Utils.validateRecipientName`
(src/frontend/js/utils.js line 274): does `s` contain a `<` followed
(eventually) by a `>`? -/
def regexMarkupTest : List Char → Bool
  | [] => false
  | c :: rest => if c = '<' then scanToGt rest || regexMarkupTest rest else regexMarkupTest rest

/-- The `{isValid, errors}` object returned by the validators in
src/frontend/js/utils.js. -/
structure ValidationResult where
  isValid : Bool
  errors : List String

/-- The error list built by `Utils.validateRecipientName`
(src/frontend/js/utils.js lines 260–283): "required" if the name is empty
or all whitespace; otherwise length and markup checks on the trimmed
name. -/
def validateRecipientNameErrors (name : List Char) : List String :=
  if name = [] ∨ jsTrim name = [] then ["Name is required"]
  else
    (if (jsTrim name).length < 1 then ["Name cannot be empty"] else []) ++
      (if (jsTrim name).length > 100 then ["Name must be less than 100 characters"] else []) ++
        (if regexMarkupTest (jsTrim name) then ["Name contains invalid characters"] else [])

/-- `Utils.validateRecipientName` (src/frontend/js/utils.js lines
260–283): returns `{isValid: errors.length === 0, errors}`. -/
def validateRecipientName (name : List Char) : ValidationResult :=
  ⟨(validateRecipientNameErrors name).isEmpty, validateRecipientNameErrors name⟩

/-- C5: `validateRecipientName` accepts a string iff its trimmed form has
between 1 and 100 characters and contains no markup (`<`…`>`), and a name
is accepted exactly when the returned error list is empty. -/
theorem validateRecipientName_accepts_iff (S : List Char) :
    ((validateRecipientName S).isValid = true ↔
      (1 ≤ (jsTrim S).length ∧ (jsTrim S).length ≤ 100 ∧
        regexMarkupTest (jsTrim S) = false)) ∧
    ((validateRecipientName S).isValid = true ↔ (validateRecipientName S).errors = []) := by
  refine ⟨?_, by simp [validateRecipientName, List.isEmpty_iff]⟩
  simp only [validateRecipientName, validateRecipientNameErrors]
  by_cases h0 : S = [] ∨ jsTrim S = []
  · have ht : jsTrim S = [] := by
      rcases h0 with h | h
      · rw [h]; rfl
      · exact h
    simp [h0, ht]
  · have hne : jsTrim S ≠ [] := fun h => h0 (Or.inr h)
    have hlen : 1 ≤ (jsTrim S).length := by
      cases h : jsTrim S with
      | nil => exact absurd h hne
      | cons a l => simp
    rw [if_neg h0, if_neg (by omega : ¬ (jsTrim S).length < 1)]
    split_ifs with h1 h2 <;> simp_all

/-- Lower-case an ASCII letter; the canonicalization applied by the `i`
flag of the regexes in `Utils.validateMessage` (all pattern letters are
ASCII, and without the `u` flag non-ASCII characters never fold onto
ASCII ones). -/
def lowerAscii (c : Char) : Char :=
  if 'A' ≤ c ∧ c ≤ 'Z' then Char.ofNat (c.toNat + 32) else c

/-- Case-insensitive prefix test against a lower-case pattern. -/
def caseFoldStartsWith : List Char → List Char → Bool
  | [], _ => true
  | _ :: _, [] => false
  | p :: ps, c :: cs => lowerAscii c = p && caseFoldStartsWith ps cs

/-- Case-insensitive substring test against a lower-case pattern: the
`test` of `/<script/i` and `/javascript:/i`. -/
def caseFoldContains (p : List Char) : List Char → Bool
  | [] => caseFoldStartsWith p []
  | c :: rest => caseFoldStartsWith p (c :: rest) || caseFoldContains p rest

/-- A regex word character, `\w`: `[A-Za-z0-9_]`. -/
def isWordChar (c : Char) : Bool :=
  ('a' ≤ c ∧ c ≤ 'z') ∨ ('A' ≤ c ∧ c ≤ 'Z') ∨ ('0' ≤ c ∧ c ≤ '9') ∨ c = '_'

/-- After `on` and one word character, `\w*=`: word characters until an
`=` is reached. -/
def wordThenEq : List Char → Bool
  | [] => false
  | c :: rest => if c = '=' then true else isWordChar c && wordThenEq rest

/-- Does the string start with a match of `/on\w+=/i`? -/
def onAttrAt : List Char → Bool
  | c1 :: c2 :: c3 :: rest =>
    lowerAscii c1 = 'o' && lowerAscii c2 = 'n' && isWordChar c3 && wordThenEq rest
  | _ => false

/-- `/on\w+=/i.test(s)`: some position of `s` starts a match. -/
def containsOnAttr : List Char → Bool
  | [] => false
  | c :: rest => onAttrAt (c :: rest) || containsOnAttr rest

/-- The `suspiciousPatterns.some(...)` check of `Utils.validateMessage`
(src/frontend/js/utils.js lines 248–249): `/<script/i`, `/javascript:/i`
or `/on\w+=/i` matches the trimmed message. -/
def messageSuspicious (t : List Char) : Bool :=
  caseFoldContains "<script".toList t || caseFoldContains "javascript:".toList t ||
    containsOnAttr t

/-- The error list built by `Utils.validateMessage`
(src/frontend/js/utils.js lines 234–258). -/
def validateMessageErrors (message : List Char) : List String :=
  if message = [] ∨ jsTrim message = [] then ["Message is required"]
  else
    (if (jsTrim message).length < 10 then ["Message must be at least 10 characters long"]
      else []) ++
      (if (jsTrim message).length > 1000 then ["Message must be less than 1000 characters"]
        else []) ++
        (if messageSuspicious (jsTrim message) then ["Message contains invalid content"] else [])

/-- `Utils.validateMessage` (src/frontend/js/utils.js lines 234–258). -/
def validateMessage (message : List Char) : ValidationResult :=
  ⟨(validateMessageErrors message).isEmpty, validateMessageErrors message⟩

/-- C7 amended: `validateMessage` accepts a string iff its trimmed form
has between 10 and 1000 characters AND matches none of the suspicious
patterns `/<script/i`, `/javascript:/i`, `/on\w+=/i`.  (The claim's
"iff the trimmed S is between 10 and 1000 characters" alone is refuted by
the counterexample below.) -/
theorem validateMessage_accepts_iff (S : List Char) :
    ((validateMessage S).isValid = true ↔
      (10 ≤ (jsTrim S).length ∧ (jsTrim S).length ≤ 1000 ∧
        messageSuspicious (jsTrim S) = false)) ∧
    ((validateMessage S).isValid = true ↔ (validateMessage S).errors = []) := by
  refine ⟨?_, by simp [validateMessage, List.isEmpty_iff]⟩
  simp only [validateMessage, validateMessageErrors]
  by_cases h0 : S = [] ∨ jsTrim S = []
  · have ht : jsTrim S = [] := by
      rcases h0 with h | h
      · rw [h]; rfl
      · exact h
    simp [h0, ht]
  · rw [if_neg h0]
    split_ifs with h1 h2 h3 <;> simp_all

/-- C7 counterexample: a message whose trimmed form has between 10 and
1000 characters but contains `<script`, which `validateMessage`
rejects. -/
theorem validateMessage_length_only_counterexample :
    10 ≤ (jsTrim "<script>alert hello friends".toList).length ∧
      (jsTrim "<script>alert hello friends".toList).length ≤ 1000 ∧
      (validateMessage "<script>alert hello friends".toList).isValid = false ∧
      (validateMessage "<script>alert hello friends".toList).errors ≠ [] := by
  refine ⟨by decide, by decide, by decide, by decide⟩

/-! ## Card loading preflight (src/frontend/js/card-viewer.js, `loadCard`) -/

/-- A character allowed by the card-id regex `^[a-zA-Z0-9_-]+$`. -/
def isIdChar (c : Char) : Bool :=
  ('a' ≤ c ∧ c ≤ 'z') ∨ ('A' ≤ c ∧ c ≤ 'Z') ∨ ('0' ≤ c ∧ c ≤ '9') ∨ c = '_' ∨ c = '-'

/-- `/^[a-zA-Z0-9_-]+$/.test(cardId)` (src/frontend/js/card-viewer.js
line 21): nonempty and all characters allowed. -/
def cardIdFormatOk (id : List Char) : Bool :=
  !id.isEmpty && id.all isIdChar

/-- The fetch that `loadCard` would issue, reduced to its two inputs: the
card id in the path and the optional `recipient_name` query parameter
(URL assembly and percent-encoding do not bear on the claims). -/
structure FetchRequest where
  cardId : List Char
  recipientParam : Option (List Char)

/-- `CardViewer.loadCard(cardId, recipientName)` from
src/frontend/js/card-viewer.js lines 14–49, modelled up to its `fetch`
call: the function either throws (`Except.error` with the thrown message)
before any network access, or reaches `fetch` with the built request
(`Except.ok`).  `recipientName = some []` models the falsy empty string,
skipped by the `if (recipientName)` guards exactly like `null`. -/
def loadCard (cardId : Option (List Char)) (recipientName : Option (List Char))
    (online : Bool) : Except String FetchRequest :=
  match cardId with
  | none => .error "No card ID provided"
  | some cid =>
    if cid = [] then .error "No card ID provided"
    else if ¬ cardIdFormatOk cid then .error "Invalid card ID format"
    else
      match
        match recipientName with
        | some n =>
          if n ≠ [] then
            match validateRecipientNameErrors n with
            | [] => Except.ok ()
            | e :: _ => Except.error e
          else Except.ok ()
        | none => Except.ok () with
      | .error e => .error e
      | .ok _ =>
        if ¬ online then
          .error "You are offline. Please check your internet connection and try again."
        else
          .ok ⟨cid,
            match recipientName with
            | some n => if n = [] then none else some n
            | none => none⟩

/-- C4: every card id that fails the format check `^[a-zA-Z0-9_-]+$` makes
`loadCard` throw an invalid-input error (the empty id is caught by the
dedicated "No card ID provided" guard first) before its `fetch` call —
an `Except.error` result means no `FetchRequest` was ever built, so no
store or network access happens. -/
theorem loadCard_rejects_bad_id (id : List Char) (name : Option (List Char)) (online : Bool)
    (h : cardIdFormatOk id = false) :
    loadCard (some id) name online = .error "No card ID provided" ∨
      loadCard (some id) name online = .error "Invalid card ID format" := by
  by_cases hnil : id = []
  · exact Or.inl (by simp [loadCard, hnil])
  · exact Or.inr (by simp [loadCard, hnil, h])

theorem loadCard_rejects_bad_id_witness :
    cardIdFormatOk "bad id!".toList = false ∧
      (loadCard (some "bad id!".toList) (some "Alice".toList) true =
          Except.error "No card ID provided" ∨
        loadCard (some "bad id!".toList) (some "Alice".toList) true =
          Except.error "Invalid card ID format") :=
  ⟨by decide, loadCard_rejects_bad_id _ _ _ (by decide)⟩

/-! ## Session handling on HTTP errors (src/frontend/js/utils.js, `makeRequest`) -/

/-- The client session entries held in browser local storage: `authToken`,
`userId`, `username` (set on login/register in src/frontend/js/auth.js,
read by `Utils.makeRequest`). -/
structure SessionState where
  authToken : Option String
  userId : Option String
  username : Option String
deriving DecidableEq

/-- The session after the three `localStorage.removeItem` calls. -/
def clearedSession : SessionState := ⟨none, none, none⟩

/-- An HTTP response as `makeRequest` observes it: the status code and the
error message parsed from the body (`errorData.detail || errorData.message`),
when one parses. -/
structure HttpResponse where
  status : Nat
  detail : Option String
deriving DecidableEq

/-- The outcome `makeRequest` delivers to its caller: the parsed JSON body
(abstracted away) or the thrown error's message. -/
inductive RequestOutcome where
  | success
  | failure (msg : String)
deriving DecidableEq

/-- The fallback error message `errorMessage` of `makeRequest`. -/
def httpErrorMessage (r : HttpResponse) : String :=
  r.detail.getD ("HTTP error! status: " ++ toString r.status)

/-- `Utils.makeRequest` (src/frontend/js/utils.js lines 285–355), modelled
from the point the response arrives: `response.ok` means status in
[200, 300); otherwise the `switch` on the status decides the thrown error,
and in the 401 case the three session entries are removed from local
storage before the throw.  Returns the session state after the call paired
with the outcome. -/
def makeRequest (st : SessionState) (r : HttpResponse) : SessionState × RequestOutcome :=
  if 200 ≤ r.status ∧ r.status < 300 then (st, .success)
  else if r.status = 401 then
    (clearedSession, .failure "Session expired. Please log in again.")
  else if r.status = 403 then
    (st, .failure "Access denied. You do not have permission to perform this action.")
  else if r.status = 404 then (st, .failure "The requested resource was not found.")
  else if r.status = 429 then
    (st, .failure "Too many requests. Please wait a moment and try again.")
  else if r.status = 500 then (st, .failure "Server error. Please try again later.")
  else if r.status = 503 then
    (st, .failure "Service temporarily unavailable. Please try again later.")
  else (st, .failure (httpErrorMessage r))

/-- C8: a 401 response clears the session (token, user id, username) and
the error is raised with the cleared state already in place; every other
status leaves the session untouched. -/
theorem makeRequest_clears_session_only_on_401 (st : SessionState) (r : HttpResponse) :
    ((makeRequest st r).1 = if r.status = 401 then clearedSession else st) ∧
      (r.status = 401 →
        (makeRequest st r).2 = .failure "Session expired. Please log in again.") := by
  unfold makeRequest
  split_ifs <;> simp_all

theorem makeRequest_clears_session_only_on_401_witness :
    (makeRequest ⟨some "tok", some "uid", some "user"⟩ ⟨401, none⟩).1 = clearedSession ∧
      (makeRequest ⟨some "tok", some "uid", some "user"⟩ ⟨401, none⟩).2 =
        .failure "Session expired. Please log in again." ∧
      (makeRequest ⟨some "tok", some "uid", some "user"⟩ ⟨403, none⟩).1 =
        ⟨some "tok", some "uid", some "user"⟩ := by
  have h401 := makeRequest_clears_session_only_on_401 ⟨some "tok", some "uid", some "user"⟩
    ⟨401, none⟩
  have h403 := makeRequest_clears_session_only_on_401 ⟨some "tok", some "uid", some "user"⟩
    ⟨403, none⟩
  exact ⟨by simpa using h401.1, h401.2 rfl, by simpa using h403.1⟩

/-! ## Card access & personalization protocol (backend)

The repository's backend (`backend/routes`, `backend/services`; see the
project layout in its README) is not among the available sources — only
the browser-side callers are.  The server-side handlers below are
therefore modelled from the spec (§3, §4.1, the audio contract, §4.3) and
the claims about them are settled against these models. -/

/-- Modelled from the spec: a Card record (§3) — id, owner, message
template, optional audio-artifact reference, creation time, cached view
counter. -/
structure Card where
  id : List Char
  owner_id : List Char
  message : List Char
  ai_voice_path : Option (List Char)
  created_at : Nat
  view_count : Nat
deriving DecidableEq

/-- Modelled from the spec: a View Event (§3) — card id, sanitized viewer
name, timestamp (the optional ip_address does not bear on the claims). -/
structure ViewEvent where
  card_id : List Char
  viewer_name : List Char
  viewed_at : Nat
deriving DecidableEq

/-- Modelled from the spec: the persistent store (§2) — the card
collection and the append-only view-event log. -/
structure Store where
  cards : List Card
  events : List ViewEvent
deriving DecidableEq

/-- Modelled from the spec: the protocol's failure taxonomy (§7) restricted
to the errors the rendering path can produce. -/
inductive ProtoErr where
  | invalidInput
  | notFound
deriving DecidableEq

/-- Modelled from the spec: the rendering output `{message, ai_voice_path}`
(§4.1). -/
structure RenderOutput where
  message : List Char
  ai_voice_path : Option (List Char)
deriving DecidableEq

/-- Card lookup by id in the store. -/
def findCard (s : Store) (cardId : List Char) : Option Card :=
  s.cards.find? (fun c => c.id == cardId)

/-- Modelled from the spec: viewer-name validation at the protocol boundary
(§4.1: "free text, 1–100 chars, must not contain markup"). -/
def viewerNameOk (n : List Char) : Bool :=
  1 ≤ n.length && n.length ≤ 100 && !regexMarkupTest n

/-- Modelled from the spec: the card-rendering handler of §4.1 (the backend
route serving `GET /cards/{card_id}?recipient_name=`, absent from the
available sources).  Format check before any store access; lookup;
personalization per the spec's substitution rule; and, only on success
with a viewer name, the atomic pair of writes: append one View Event and
bump the card's cached counter. -/
def renderCard (s : Store) (now : Nat) (cardId : List Char)
    (viewerName : Option (List Char)) : Store × Except ProtoErr RenderOutput :=
  if ¬ cardIdFormatOk cardId then (s, .error .invalidInput)
  else
    match findCard s cardId with
    | none => (s, .error .notFound)
    | some card =>
      match viewerName with
      | none => (s, .ok ⟨card.message, card.ai_voice_path⟩)
      | some n =>
        if viewerNameOk n then
          (⟨s.cards.map (fun c =>
              if c.id == cardId then { c with view_count := c.view_count + 1 } else c),
            s.events ++ [⟨cardId, n, now⟩]⟩,
           .ok ⟨replaceAllSpec n card.message, card.ai_voice_path⟩)
        else (s, .error .invalidInput)

/-- Modelled from the spec: the audio-resolution result of §4.1's second
contract — a byte-stream reference, or the sentinel "not yet available"
which is a normal state, not an error. -/
inductive AudioResult where
  | notAvailable
  | stream (path : List Char)
deriving DecidableEq

/-- Modelled from the spec: the audio-resolution handler (`GET
/cards/{card_id}/audio`, absent from the available sources): never touches
the view-event log, and a card without `ai_voice_path` yields the
sentinel, not an error. -/
def resolveAudio (s : Store) (cardId : List Char) : Store × Except ProtoErr AudioResult :=
  if ¬ cardIdFormatOk cardId then (s, .error .invalidInput)
  else
    match findCard s cardId with
    | none => (s, .error .notFound)
    | some card =>
      match card.ai_voice_path with
      | none => (s, .ok .notAvailable)
      | some p => (s, .ok (.stream p))

/-- What the viewer page does with the audio section after loading a card
(src/frontend/js/card-viewer.js lines 252–277): with an `ai_voice_path` it
shows the player and plays the file; with `null` it hides the player and
shows an informational note — not an error. -/
inductive AudioSectionView where
  | player (path : List Char)
  | pendingNote (label note : String)
deriving DecidableEq

/-- The `if (card.ai_voice_path)` branch of the `nameForm` submit handler
(src/frontend/js/card-viewer.js lines 252–277). -/
def audioSectionRender (aiVoicePath : Option (List Char)) : AudioSectionView :=
  match aiVoicePath with
  | some p => .player p
  | none =>
    .pendingNote "🎵 Voice Message: <em>Audio message will be available soon!</em>"
      "<em>The couple is preparing a personalized voice message for you. Please check back later!</em>"

/-- Audio resolution never modifies the store, whatever the card id. -/
lemma resolveAudio_preserves_store (s : Store) (cardId : List Char) :
    (resolveAudio s cardId).1 = s := by
  by_cases h : cardIdFormatOk cardId
  · cases hf : findCard s cardId with
    | none => simp [resolveAudio, h, hf]
    | some c => cases hp : c.ai_voice_path <;> simp [resolveAudio, h, hf, hp]
  · simp [resolveAudio, h]

/-- C2: a rendering request without a viewer name appends no View Event;
a request with a viewer name appends exactly one event when it succeeds
(and none when it fails). -/
theorem renderCard_event_discipline (s : Store) (now : Nat) (cardId : List Char) :
    ((renderCard s now cardId none).1.events = s.events) ∧
      (∀ n : List Char,
        ((renderCard s now cardId (some n)).2.isOk = true →
          (renderCard s now cardId (some n)).1.events = s.events ++ [⟨cardId, n, now⟩]) ∧
        ((renderCard s now cardId (some n)).2.isOk = false →
          (renderCard s now cardId (some n)).1.events = s.events)) := by
  constructor
  · by_cases h : cardIdFormatOk cardId
    · cases hf : findCard s cardId <;> simp [renderCard, h, hf]
    · simp [renderCard, h]
  · intro n
    by_cases h : cardIdFormatOk cardId
    · cases hf : findCard s cardId with
      | none => simp [renderCard, h, hf, Except.isOk, Except.toBool]
      | some card =>
        by_cases hv : viewerNameOk n <;>
          simp [renderCard, h, hf, hv, Except.isOk, Except.toBool]
    · simp [renderCard, h, Except.isOk, Except.toBool]

/-- A concrete card for the witnesses, matching the spec's §8 scenario. -/
def sampleCard : Card :=
  ⟨"abc123".toList, "owner1".toList, "Dear \x7bname\x7d, thank you for coming!".toList,
    none, 0, 0⟩

/-- A concrete one-card store with an empty view-event log. -/
def sampleStore : Store := ⟨[sampleCard], []⟩

theorem renderCard_event_discipline_witness :
    ((renderCard sampleStore 5 "abc123".toList none).1.events = sampleStore.events) ∧
      ((renderCard sampleStore 5 "abc123".toList (some "Alice".toList)).2.isOk = true →
        (renderCard sampleStore 5 "abc123".toList (some "Alice".toList)).1.events =
          sampleStore.events ++ [⟨"abc123".toList, "Alice".toList, 5⟩]) := by
  have h := renderCard_event_discipline sampleStore 5 "abc123".toList
  exact ⟨h.1, (h.2 "Alice".toList).1⟩

/-- C9: for a card whose `ai_voice_path` is null, audio resolution returns
the "not yet available" sentinel as a success, the store (in particular
the view-event log) is untouched — audio resolution never writes events
for any card — and the viewer page renders the informational note rather
than an error. -/
theorem audio_not_available_is_not_error (s : Store) (cardId : List Char) (card : Card)
    (hfmt : cardIdFormatOk cardId = true) (hfind : findCard s cardId = some card)
    (hnull : card.ai_voice_path = none) :
    resolveAudio s cardId = (s, .ok .notAvailable) ∧
      (∀ s' : Store, ∀ anyId : List Char, (resolveAudio s' anyId).1 = s') ∧
      audioSectionRender card.ai_voice_path =
        .pendingNote "🎵 Voice Message: <em>Audio message will be available soon!</em>"
          "<em>The couple is preparing a personalized voice message for you. Please check back later!</em>" := by
  refine ⟨?_, fun s' anyId => resolveAudio_preserves_store s' anyId, by rw [hnull]; rfl⟩
  simp [resolveAudio, hfmt, hfind, hnull]

theorem audio_not_available_is_not_error_witness :
    cardIdFormatOk "abc123".toList = true ∧
      findCard sampleStore "abc123".toList = some sampleCard ∧
      sampleCard.ai_voice_path = none ∧
      resolveAudio sampleStore "abc123".toList = (sampleStore, .ok .notAvailable) :=
  ⟨by decide, by decide, by decide,
    (audio_not_available_is_not_error sampleStore "abc123".toList sampleCard (by decide)
      (by decide) (by decide)).1⟩

/-! ## The view-count invariant (C3) -/

/-- The number of View Events recorded for a card id. -/
def eventCount (s : Store) (cardId : List Char) : Nat :=
  (s.events.filter (fun e => e.card_id == cardId)).length

/-- Modelled from the spec: the §3/§8 post-write invariant — every card's
cached `view_count` equals the count of View Events for that card. -/
def viewCountInvariant (s : Store) : Prop :=
  ∀ c ∈ s.cards, c.view_count = eventCount s c.id

instance (s : Store) : Decidable (viewCountInvariant s) := by
  unfold viewCountInvariant
  infer_instance

/-- Modelled from the spec: the store-touching operations of the protocol
and its collaborators (§4): rendering a card (with or without a viewer
name), resolving audio, creating a card (a new card starts with a zero
counter), and the read-only analytics rollups. -/
inductive ProtocolOp where
  | render (now : Nat) (cardId : List Char) (viewerName : Option (List Char))
  | audio (cardId : List Char)
  | create (id owner_id message : List Char) (ai_voice_path : Option (List Char))
      (created_at : Nat)
  | rollup (cardId : List Char)

/-- Modelled from the spec: the store after an operation. -/
def applyOp (s : Store) : ProtocolOp → Store
  | .render now cardId viewerName => (renderCard s now cardId viewerName).1
  | .audio cardId => (resolveAudio s cardId).1
  | .create id owner msg path t => ⟨s.cards ++ [⟨id, owner, msg, path, t, 0⟩], s.events⟩
  | .rollup _ => s

/-- Side condition for card creation, from §3: ids are opaque unique
tokens, so a freshly created card has no View Events recorded under its
id yet.  All other operations carry no side condition. -/
def opFresh (s : Store) : ProtocolOp → Prop
  | .create id _ _ _ _ => eventCount s id = 0
  | _ => True

/-- C3: every protocol operation preserves the invariant that each card's
cached `view_count` equals the number of View Events for that card — in
particular the counter increment and the event append of a successful
personalized render happen together or not at all. -/
theorem view_count_invariant_preserved (s : Store) (op : ProtocolOp)
    (hfresh : opFresh s op) (h : viewCountInvariant s) :
    viewCountInvariant (applyOp s op) := by
  cases op with
  | rollup cardId => exact h
  | audio cardId =>
    show viewCountInvariant (resolveAudio s cardId).1
    rw [resolveAudio_preserves_store]
    exact h
  | create id owner msg path t =>
    intro c hc
    rcases List.mem_append.mp hc with hold | hnew
    · exact h c hold
    · have hceq : c = ⟨id, owner, msg, path, t, 0⟩ := by simpa using hnew
      subst hceq
      exact hfresh.symm
  | render now cardId viewerName =>
    by_cases hfmt : cardIdFormatOk cardId
    · cases hf : findCard s cardId with
      | none => simpa [applyOp, renderCard, hfmt, hf] using h
      | some card =>
        cases viewerName with
        | none => simpa [applyOp, renderCard, hfmt, hf] using h
        | some n =>
          by_cases hv : viewerNameOk n
          · intro c' hc'
            simp only [applyOp, renderCard, hfmt, hf, hv, if_true, not_true_eq_false,
              if_false, ite_true, ite_false] at hc' ⊢
            obtain ⟨c, hc, rfl⟩ := List.mem_map.mp hc'
            rw [eventCount]
            simp only [List.filter_append, List.length_append]
            by_cases hid : c.id = cardId
            · simp only [hid, beq_self_eq_true, if_true, ite_true]
              have hone : (List.filter
                  (fun e => e.card_id == cardId)
                  [(⟨cardId, n, now⟩ : ViewEvent)]).length = 1 := by simp
              rw [hone]
              have hbase := h c hc
              rw [eventCount, hid] at hbase
              omega
            · have hbeq : (c.id == cardId) = false := by
                simpa using hid
              have hbeq2 : (cardId == c.id) = false := by
                simpa using fun hx => hid hx.symm
              simp [hbeq, hbeq2]
              have hbase := h c hc
              simpa [eventCount] using hbase
          · simpa [applyOp, renderCard, hfmt, hf, hv] using h
    · simpa [applyOp, renderCard, hfmt] using h

theorem view_count_invariant_preserved_witness :
    viewCountInvariant sampleStore ∧
      viewCountInvariant
        (applyOp sampleStore (.render 5 "abc123".toList (some "Alice".toList))) :=
  ⟨by decide,
    view_count_invariant_preserved sampleStore
      (.render 5 "abc123".toList (some "Alice".toList)) trivial (by decide)⟩

end WeddingCards
